import Mathlib

/-!
Verification development for the tai/xiu ensemble forecasting service.

The repository holds two near-duplicate variants of the same program:
`src/unnamed/part_000` (modelled in namespace `P0`) and `src/server.js`
(modelled in namespace `Srv`).  Shared numeric/statistical utilities are
modelled once at top level; rational arithmetic of the source is modelled
over `ℚ`, logarithms and square roots over `ℝ`.  JavaScript runtime
exceptions (TypeError on property access of null/undefined, ReferenceError
on reading an undeclared identifier) are modelled with `Except JsErr`.
-/

/-- Binary round outcome: `T` (Tài/high) or `X` (Xỉu/low). -/
inductive Outcome where
  | T : Outcome
  | X : Outcome
deriving DecidableEq, Repr

/-- The opposite outcome symbol. -/
def Outcome.flip : Outcome → Outcome
  | .T => .X
  | .X => .T

/-- A shaped round as produced by `shapeHistory`: session number `phien`,
three dice, their announced total `tong`, and the normalized outcome. -/
structure Round where
  phien : ℚ
  d1 : ℚ
  d2 : ℚ
  d3 : ℚ
  tong : ℚ
  ket_qua : Outcome
deriving DecidableEq, Repr

/-- A raw upstream row before shaping.  Absent fields are `none`; numeric
fields are modelled as already-numeric values (the JS `Number(...)`
coercion applied to a present numeric field). -/
structure RawRound where
  Phien : Option ℚ
  Xuc_xac_1 : Option ℚ
  Xuc_xac_2 : Option ℚ
  Xuc_xac_3 : Option ℚ
  Tong : Option ℚ
  Ket_qua : Option String
deriving DecidableEq, Repr

/-- JavaScript runtime exceptions relevant to the modelled code paths. -/
inductive JsErr where
  | typeError : JsErr
  | referenceError : JsErr
deriving DecidableEq, Repr

/-- The module-level `OnlineLogisticEnsemble` state: per-feature weights,
bias, and the `_warmed` flag.  The constructor draws initial weights from
`Math.random()`, so theorems quantify over arbitrary states. -/
structure MetaState where
  w : String → ℚ
  bias : ℚ
  warmed : Bool

/-- The value returned by `ensemblePredict` (`pieces` is omitted: the main
path that would populate it never completes, see
`P0.extractFeaturesForEnsemble`). -/
structure Forecast where
  pred : Outcome
  conf : ℚ
  why : List String
deriving DecidableEq, Repr

/-- The JS `String(v).trim().toLowerCase()` normalization, modelled on
the character list of the string (drop whitespace at both ends, then
lowercase each character). -/
def jsTrimLower (s : String) : List Char :=
  (((s.data.dropWhile (fun c => c.isWhitespace)).reverse.dropWhile
      (fun c => c.isWhitespace)).reverse).map Char.toLower

/-- normResult (both variants): trim, lowercase, and map the accepted
spellings to `T`/`X`; anything else (or a missing field) is rejected. -/
def normResult (v : Option String) : Option Outcome :=
  match v with
  | none => none
  | some s =>
    let t := jsTrimLower s
    if t = "t".data ∨ t = "tai".data ∨ t = "tài".data then some Outcome.T
    else if t = "x".data ∨ t = "xiu".data ∨ t = "xỉu".data then some Outcome.X
    else none

/-- lastN (both variants): `arr.slice(-n)`, the trailing `n` elements.
Every call site in the modelled code passes `n ≥ 1`, where both variants
agree with this definition. -/
def lastN {α : Type} (l : List α) (n : ℕ) : List α :=
  l.drop (l.length - n)

/-- sum (both variants): `arr.reduce((a,b) => a+b, 0)`. -/
def sumQ (l : List ℚ) : ℚ := l.foldl (· + ·) 0

/-- avg (both variants): sum divided by length, `0` for an empty array. -/
def avg (l : List ℚ) : ℚ :=
  if l = [] then 0 else sumQ l / l.length

/-- variance (both variants): sample variance with denominator `n−1`,
`0` when fewer than two elements. -/
def variance (l : List ℚ) : ℚ :=
  if l.length < 2 then 0
  else
    let mean := avg l
    sumQ (l.map (fun v => (v - mean) ^ 2)) / ((l.length : ℚ) - 1)

/-- entropy (both variants): Shannon entropy in bits of the empirical
T/X split, with the `1e-10` epsilon added inside `Math.log2`; `0` for an
empty array. -/
noncomputable def entropy (arr : List Outcome) : ℝ :=
  if arr = [] then 0
  else
    let pT : ℝ := (arr.count Outcome.T : ℝ) / (arr.length : ℝ)
    let pX : ℝ := 1 - pT;
    -(pT * Real.logb 2 (pT + 1e-10) + pX * Real.logb 2 (pX + 1e-10))

/-- kurtosis (server.js lines 174–181): `m4/m2² − 3` with no guard on
`m2 = 0`.  A zero denominator makes the JS division produce `NaN`
(`0/0`, since `m2 = 0` forces `m4 = 0`); the model encodes that
non-finite outcome as `none`. -/
def kurtosis (l : List ℚ) : Option ℚ :=
  if l.length < 4 then some 0
  else
    let mean := avg l
    let n : ℚ := l.length
    let m4 := sumQ (l.map (fun v => (v - mean) ^ 4)) / n
    let m2 := sumQ (l.map (fun v => (v - mean) ^ 2)) / n
    if m2 ^ 2 = 0 then none else some (m4 / m2 ^ 2 - 3)

/-- skewness (server.js lines 184–191): `m3 / (√m2)³` with no guard on
`m2 = 0`.  A zero denominator makes the JS division produce `NaN`
(`0/0`, since `m2 = 0` forces `m3 = 0`); the model encodes that
non-finite outcome as `none`. -/
noncomputable def skewness (l : List ℚ) : Option ℝ :=
  if l.length < 3 then some 0
  else
    let mean := avg l
    let n : ℚ := l.length
    let m3 := sumQ (l.map (fun v => (v - mean) ^ 3)) / n
    let m2 := sumQ (l.map (fun v => (v - mean) ^ 2)) / n
    if m2 = 0 then none
    else some ((m3 : ℝ) / (Real.sqrt (m2 : ℝ)) ^ 3)

/-- Math.round semantics on rationals: round half away from zero upward,
i.e. `⌊x + 1/2⌋` (JS rounds `-2.5` to `-2`, matching this). -/
def jsRound (x : ℚ) : ℤ := ⌊x + 1 / 2⌋

/-- Number of (possibly overlapping) consecutive occurrences of the
pattern `p` in `l`, as counted by the indexed loops of `countPattern`
and of the Markov transition-count builders (only called with `p ≠ []`). -/
def countSub : List Outcome → List Outcome → ℕ
  | [], _ => 0
  | a :: xs, p => (if p.isPrefixOf (a :: xs) then 1 else 0) + countSub xs p

/-- Alternating outcome sequence of length `n` starting with `o`
(`o, o.flip, o, o.flip, ...`): the shape of a perfect zigzag history. -/
def altUp : ℕ → Outcome → List Outcome
  | 0, _ => []
  | n + 1, o => o :: altUp n o.flip

/-- `o` flipped `n` times: the symbol `n` alternation steps after `o`. -/
def flipN (n : ℕ) (o : Outcome) : Outcome :=
  if n % 2 = 0 then o else o.flip

/-- A fixed shaped round carrying the given outcome (the non-outcome
fields are irrelevant to the outcome-only sub-predictors). -/
def roundOf (o : Outcome) : Round :=
  { phien := 0, d1 := 1, d2 := 1, d3 := 1, tong := 3, ket_qua := o }

/-- A shaped history whose outcome column is the perfect alternation
`altUp n o`. -/
def altHist (n : ℕ) (o : Outcome) : List Round :=
  (altUp n o).map roundOf

namespace P0

/-- shapeHistory (part_000 lines 138–160): keep rows with all six fields
present, normalize the outcome, drop rows whose outcome fails to parse,
and sort ascending by `phien`.  This variant performs no dice-range or
dice-sum validation. -/
def shapeHistory (raw : List RawRound) : List Round :=
  (raw.filterMap (fun r =>
    match r.Phien, r.Xuc_xac_1, r.Xuc_xac_2, r.Xuc_xac_3, r.Tong,
        normResult r.Ket_qua with
    | some ph, some a, some b, some c, some t, some o =>
      some { phien := ph, d1 := a, d2 := b, d3 := c, tong := t, ket_qua := o }
    | _, _, _, _, _, _ => none)).mergeSort
    (fun x y => decide (x.phien ≤ y.phien))

/-- Result of `markovPrediction`.  `pT`/`pX` are the smoothed transition
probabilities computed in the function body (the part_000 variant drops
them from its return object, the server.js variant returns them). -/
structure MarkovOut where
  pred : Outcome
  conf : ℚ
  pT : ℚ
  pX : ℚ
deriving DecidableEq, Repr

/-- The transition-probability pair `(pT, pX)` computed by the body of
`markovPrediction` (part_000 lines 396–522) from the visible outcome
window `use`: Laplace-(+1)-smoothed transition counts for contexts of
length 1, 2, 3 and (only the `TTTT` context at) length 4, choosing the
longest applicable context.  Each `1 + countSub use [...]` binding is
the corresponding `+1`-initialized counter variable after its build
loop; the `xxx_x_t`/`xxx_x_x` counters of the source are declared but
never incremented nor read, so they are omitted. -/
def markovProbs (use : List Outcome) : ℚ × ℚ :=
  let tt : ℚ := 1 + countSub use [.T, .T]
  let tx : ℚ := 1 + countSub use [.T, .X]
  let xt : ℚ := 1 + countSub use [.X, .T]
  let xx : ℚ := 1 + countSub use [.X, .X]
  let tt_t : ℚ := 1 + countSub use [.T, .T, .T]
  let tt_x : ℚ := 1 + countSub use [.T, .T, .X]
  let tx_t : ℚ := 1 + countSub use [.T, .X, .T]
  let tx_x : ℚ := 1 + countSub use [.T, .X, .X]
  let xt_t : ℚ := 1 + countSub use [.X, .T, .T]
  let xt_x : ℚ := 1 + countSub use [.X, .T, .X]
  let xx_t : ℚ := 1 + countSub use [.X, .X, .T]
  let xx_x : ℚ := 1 + countSub use [.X, .X, .X]
  let ttt_t : ℚ := 1 + countSub use [.T, .T, .T, .T]
  let ttt_x : ℚ := 1 + countSub use [.T, .T, .T, .X]
  let ttx_t : ℚ := 1 + countSub use [.T, .T, .X, .T]
  let ttx_x : ℚ := 1 + countSub use [.T, .T, .X, .X]
  let txt_t : ℚ := 1 + countSub use [.T, .X, .T, .T]
  let txt_x : ℚ := 1 + countSub use [.T, .X, .T, .X]
  let txx_t : ℚ := 1 + countSub use [.T, .X, .X, .T]
  let txx_x : ℚ := 1 + countSub use [.T, .X, .X, .X]
  let xtt_t : ℚ := 1 + countSub use [.X, .T, .T, .T]
  let xtt_x : ℚ := 1 + countSub use [.X, .T, .T, .X]
  let xtx_t : ℚ := 1 + countSub use [.X, .T, .X, .T]
  let xtx_x : ℚ := 1 + countSub use [.X, .T, .X, .X]
  let xxt_t : ℚ := 1 + countSub use [.X, .X, .T, .T]
  let xxt_x : ℚ := 1 + countSub use [.X, .X, .T, .X]
  let xxx_t : ℚ := 1 + countSub use [.X, .X, .X, .T]
  let xxx_x : ℚ := 1 + countSub use [.X, .X, .X, .X]
  let tttt_t : ℚ := 1 + countSub use [.T, .T, .T, .T, .T]
  let tttt_x : ℚ := 1 + countSub use [.T, .T, .T, .T, .X]
  if 4 ≤ use.length ∧ lastN use 4 = [.T, .T, .T, .T] then
      (tttt_t / (tttt_t + tttt_x), tttt_x / (tttt_t + tttt_x))
    else if 3 ≤ use.length then
      match lastN use 3 with
      | [.T, .T, .T] => (ttt_t / (ttt_t + ttt_x), ttt_x / (ttt_t + ttt_x))
      | [.T, .T, .X] => (ttx_t / (ttx_t + ttx_x), ttx_x / (ttx_t + ttx_x))
      | [.T, .X, .T] => (txt_t / (txt_t + txt_x), txt_x / (txt_t + txt_x))
      | [.T, .X, .X] => (txx_t / (txx_t + txx_x), txx_x / (txx_t + txx_x))
      | [.X, .T, .T] => (xtt_t / (xtt_t + xtt_x), xtt_x / (xtt_t + xtt_x))
      | [.X, .T, .X] => (xtx_t / (xtx_t + xtx_x), xtx_x / (xtx_t + xtx_x))
      | [.X, .X, .T] => (xxt_t / (xxt_t + xxt_x), xxt_x / (xxt_t + xxt_x))
      | [.X, .X, .X] => (xxx_t / (xxx_t + xxx_x), xxx_x / (xxx_t + xxx_x))
      | _ => (0.5, 0.5)
    else if 2 ≤ use.length then
      match lastN use 2 with
      | [.T, .T] => (tt_t / (tt_t + tt_x), tt_x / (tt_t + tt_x))
      | [.T, .X] => (tx_t / (tx_t + tx_x), tx_x / (tx_t + tx_x))
      | [.X, .T] => (xt_t / (xt_t + xt_x), xt_x / (xt_t + xt_x))
      | [.X, .X] => (xx_t / (xx_t + xx_x), xx_x / (xx_t + xx_x))
      | _ => (0.5, 0.5)
    else
      match use with
      | [.T] => (tt / (tt + tx), tx / (tt + tx))
      | [.X] => (xt / (xt + xx), xx / (xt + xx))
      | _ => (0.5, 0.5)

/-- markovPrediction (part_000 lines 396–522): compute the smoothed
transition probabilities from the trailing 200 outcomes (see
`markovProbs`), predict the symbol with the larger probability (ties to
`T`), and map the winning probability through the fixed affine
confidence shaping capped at `0.98`. -/
def markovPrediction (hist : List Round) : MarkovOut :=
  let rs := hist.map Round.ket_qua
  let use := lastN rs 200
  let p := markovProbs use
  let pred := if p.2 ≤ p.1 then Outcome.T else Outcome.X
  let c := max p.1 p.2 + 0.1
  { pred := pred, conf := min 0.98 (0.65 + (c - 0.5) * 0.8),
    pT := p.1, pX := p.2 }

end P0

namespace P0

/-- extractFeaturesForEnsemble (part_000 lines 710–771).  Every local
the body computes (trailing-window frequencies, normalized averages,
streak/switch/parity features, the seven sub-predictor results, entropy,
autocorrelations and dice features) is total and raises no exception;
but the final `return { f_freqT_5, f_freqT_10, ... }` object literal
uses shorthand properties whose identifiers (`f_freqT_5`, `f_avg5`,
`f_run`, ...) are never declared — the locals are named `freqT_5`,
`avg5`, `run`, ....  Reading an undeclared identifier in JavaScript
raises `ReferenceError`, so this function never returns a value:
its result type is `Empty` and its outcome is always the error. -/
def extractFeaturesForEnsemble (hist : List Round) : Except JsErr Empty :=
  .error .referenceError

/-- ensemblePredict (part_000 lines 851–896).  A null history enters the
guard but `hist.at(-1)` then throws a TypeError (the optional chaining
sits after `.at`, not before it).  A history shorter than 10 rounds
returns the low-confidence fallback.  Otherwise, when the warm-up
condition holds (more than 150 rounds and not yet warmed),
`batchFitWalkForward` calls `extractFeaturesForEnsemble` on
`hist.slice(0, 81)` before performing any weight update, and that call
raises; when the warm-up condition fails, the direct
`extractFeaturesForEnsemble(hist)` call on line 861 raises.  In every
case the module-level logistic state is returned unchanged. -/
def ensemblePredict (st : MetaState) (hist : Option (List Round)) :
    Except JsErr Forecast × MetaState :=
  match hist with
  | none => (.error .typeError, st)
  | some h =>
    if h.length < 10 then
      (.ok { pred := (h.getLast?.map Round.ket_qua).getD Outcome.T,
             conf := 0.6,
             why := ["Khong du du lieu, fallback Super VIP"] }, st)
    else if 150 < h.length ∧ st.warmed = false then
      match extractFeaturesForEnsemble (h.take 81) with
      | .error e => (.error e, st)
      | .ok f => f.elim
    else
      match extractFeaturesForEnsemble h with
      | .error e => (.error e, st)
      | .ok f => f.elim

/-- kellyBetSize (part_000 lines 939–947): clamp the confidence into
`[0.01, 0.99]`, compute the Kelly fraction, fall back to `baseUnit`
when it is non-positive, else bet `max(1, round(bankroll·min(0.25, k)))`. -/
def kellyBetSize (confidence payout bankroll baseUnit : ℚ) : ℚ :=
  let p := max 0.01 (min 0.99 confidence)
  let b := payout
  let q := 1 - p
  let k := (b * p - q) / b
  if k ≤ 0 then baseUnit
  else
    let frac := min 0.25 k
    max 1 ((jsRound (bankroll * frac) : ℚ))

/-- One row of the backtest per-step detail log. -/
structure BtDetail where
  idx : ℕ
  pred : Outcome
  actual : Outcome
  conf : ℚ
  bet : ℚ
  bankroll : ℚ
  ret : ℚ
deriving DecidableEq, Repr

/-- The report built by `overallBacktest` (part_000): `bankroll` is
`null` in the short-circuit branch, hence an `Option`. -/
structure BtReport where
  acc : ℚ
  sample : ℤ
  bankroll : Option ℚ
  roi : ℚ
  maxDrawdown : ℚ
  sharpe : ℝ
  details : List BtDetail

/-- Accumulator threaded through the walk-forward loop of
`overallBacktest`. -/
structure BtAcc where
  meta : MetaState
  correct : ℕ
  bankroll : ℚ
  peak : ℚ
  maxDrawdown : ℚ
  returns : List ℚ
  details : List BtDetail

/-- One iteration of the part_000 backtest loop (lines 911–930): predict
from the prefix `hist.slice(0, i+1)`, compare against `hist[i+1]`, size
the bet by `kellyBetSize`, update bankroll / peak / drawdown / returns /
details.  The JS `ret` divisions use the post-update bankroll.  A zero
post-update bankroll would make JS produce `±Infinity` where the `ℚ`
model yields `0`; no claim depends on that unreachable-from-1000 case. -/
def btStep (hist : List Round) (betUnit : ℚ) (acc : BtAcc) (i : ℕ) :
    Except JsErr BtAcc :=
  match ensemblePredict acc.meta (some (hist.take (i + 1))) with
  | (.error e, _) => .error e
  | (.ok res, m2) =>
    match hist[i + 1]? with
    | none => .error .typeError
    | some nxt =>
      let actualNext := nxt.ket_qua
      let betSize := kellyBetSize res.conf 0.95 acc.bankroll betUnit
      if res.pred = actualNext then
        let bankroll2 := acc.bankroll + betSize * 0.95
        let ret := betSize * 0.95 / bankroll2
        let peak2 := max acc.peak bankroll2
        let dd := (peak2 - bankroll2) / peak2
        .ok { meta := m2, correct := acc.correct + 1, bankroll := bankroll2,
              peak := peak2, maxDrawdown := max acc.maxDrawdown dd,
              returns := acc.returns ++ [ret],
              details := acc.details ++
                [{ idx := i + 1, pred := res.pred, actual := actualNext,
                   conf := res.conf, bet := betSize, bankroll := bankroll2,
                   ret := ret }] }
      else
        let bankroll2 := acc.bankroll - betSize
        let ret := -betSize / bankroll2
        let peak2 := max acc.peak bankroll2
        let dd := (peak2 - bankroll2) / peak2
        .ok { meta := m2, correct := acc.correct, bankroll := bankroll2,
              peak := peak2, maxDrawdown := max acc.maxDrawdown dd,
              returns := acc.returns ++ [ret],
              details := acc.details ++
                [{ idx := i + 1, pred := res.pred, actual := actualNext,
                   conf := res.conf, bet := betSize, bankroll := bankroll2,
                   ret := ret }] }

/-- overallBacktest (part_000 lines 901–937): with effective sample size
`n = min(lookback, hist.length − 1)`, short-circuit to the neutral
all-zero report when `n ≤ 20`; otherwise run the walk-forward loop over
`i = hist.length−1−n, ..., hist.length−2` and assemble the report
(`details.slice(-200)`, accuracy `correct/n`, roi against the initial
1000 bankroll, Sharpe as mean return over standard deviation when the
latter is positive).  Errors raised inside the loop propagate out with
the module state unchanged (no weight update ever precedes them). -/
noncomputable def overallBacktest (st : MetaState) (hist : List Round)
    (lookback : ℤ) (betUnit : ℚ) : Except JsErr BtReport × MetaState :=
  let n : ℤ := min lookback ((hist.length : ℤ) - 1)
  if n ≤ 20 then
    (.ok { acc := 0, sample := n, bankroll := none, roi := 0,
           maxDrawdown := 0, sharpe := 0, details := [] }, st)
  else
    let start : ℕ := hist.length - 1 - n.toNat
    match (List.range' start n.toNat).foldlM (btStep hist betUnit)
        { meta := st, correct := 0, bankroll := 1000, peak := 1000,
          maxDrawdown := 0, returns := [], details := [] } with
    | .error e => (.error e, st)
    | .ok a =>
      let meanRet := avg a.returns
      let sdRet : ℝ := Real.sqrt ((variance a.returns : ℚ) : ℝ)
      (.ok { acc := (a.correct : ℚ) / (n : ℚ), sample := n,
             bankroll := some a.bankroll,
             roi := (a.bankroll - 1000) / 1000,
             maxDrawdown := a.maxDrawdown,
             sharpe := if 0 < sdRet then ((meanRet : ℚ) : ℝ) / sdRet else 0,
             details := lastN a.details 200 }, st)

end P0

namespace Srv

/-- shapeHistory (server.js lines 379–405): like the part_000 variant
but additionally rejects rows whose dice values fall outside `[1, 6]`
or whose `Tong` differs from the dice sum. -/
def shapeHistory (raw : List RawRound) : List Round :=
  (raw.filterMap (fun r =>
    match r.Phien, r.Xuc_xac_1, r.Xuc_xac_2, r.Xuc_xac_3, r.Tong,
        normResult r.Ket_qua with
    | some ph, some a, some b, some c, some t, some o =>
      if 1 ≤ a ∧ a ≤ 6 ∧ 1 ≤ b ∧ b ≤ 6 ∧ 1 ≤ c ∧ c ≤ 6 ∧ t = a + b + c then
        some { phien := ph, d1 := a, d2 := b, d3 := c, tong := t,
               ket_qua := o }
      else none
    | _, _, _, _, _, _ => none)).mergeSort
    (fun x y => decide (x.phien ≤ y.phien))

/-- extractFeaturesForEnsemble (server.js lines 1205–1288).  As in the
part_000 variant, the return object literal uses shorthand properties
whose identifiers are never declared (`f_freqT_5`, ..., and also
`f_switch50`, `f_parity20`, `f_entropy50`, `f_lag4`, `f_avgDice20`,
`f_highDice20` for locals named `switchRate50`, `parityRatio20`, ...),
so evaluating the return statement raises `ReferenceError` and the
function never returns a value. -/
def extractFeaturesForEnsemble (hist : List Round) : Except JsErr Empty :=
  .error .referenceError

/-- ensemblePredict (server.js lines 1324–1380).  The fallback guard is
`!hist || hist.length < 15` and its fallback expression
`hist && hist.length ? hist[hist.length-1].ket_qua : "T"` is null-safe,
so a null or empty history yields prediction `T` without throwing.  On
the main path the warm-up call sits in a try/catch whose error is
swallowed, after which the direct `extractFeaturesForEnsemble(hist)`
call on line 1337 raises `ReferenceError` (uncaught); no logistic-state
update precedes it.  (The enclosing file also constructs
`LOGISTIC_ENSEMBLE` before its class declaration and elides the class
methods, and has syntax errors at lines 712, 763 and 766; those defects
are upstream of this function body and are noted where a claim depends
on them.) -/
def ensemblePredict (st : MetaState) (hist : Option (List Round)) :
    Except JsErr Forecast × MetaState :=
  match hist with
  | none =>
    (.ok { pred := Outcome.T, conf := 0.6,
           why := ["Khong du du lieu, fallback"] }, st)
  | some h =>
    if h.length < 15 then
      (.ok { pred := (h.getLast?.map Round.ket_qua).getD Outcome.T,
             conf := 0.6,
             why := ["Khong du du lieu, fallback"] }, st)
    else
      match extractFeaturesForEnsemble h with
      | .error e => (.error e, st)
      | .ok f => f.elim

/-- kellyBetSize (server.js lines 1427–1435): identical to the part_000
variant except the maximum bankroll fraction is `0.2`. -/
def kellyBetSize (confidence payout bankroll baseUnit : ℚ) : ℚ :=
  let p := max 0.01 (min 0.99 confidence)
  let b := payout
  let q := 1 - p
  let k := (b * p - q) / b
  if k ≤ 0 then baseUnit
  else
    let frac := min 0.2 k
    max 1 ((jsRound (bankroll * frac) : ℚ))

/-- The report built by the server.js `overallBacktest`, which adds a
Sortino ratio to the part_000 report shape. -/
structure BtReport where
  acc : ℚ
  sample : ℤ
  bankroll : Option ℚ
  roi : ℚ
  maxDrawdown : ℚ
  sharpe : ℝ
  sortino : ℝ
  details : List P0.BtDetail

/-- Accumulator for the server.js backtest loop (adds the
negative-returns list feeding the Sortino denominator). -/
structure BtAcc where
  meta : MetaState
  correct : ℕ
  bankroll : ℚ
  peak : ℚ
  maxDrawdown : ℚ
  returns : List ℚ
  negativeReturns : List ℚ
  details : List P0.BtDetail

/-- One iteration of the server.js backtest loop (lines 1396–1416):
as in part_000, additionally recording losing-step returns. -/
def btStep (hist : List Round) (betUnit : ℚ) (acc : BtAcc) (i : ℕ) :
    Except JsErr BtAcc :=
  match ensemblePredict acc.meta (some (hist.take (i + 1))) with
  | (.error e, _) => .error e
  | (.ok res, m2) =>
    match hist[i + 1]? with
    | none => .error .typeError
    | some nxt =>
      let actualNext := nxt.ket_qua
      let betSize := kellyBetSize res.conf 0.95 acc.bankroll betUnit
      if res.pred = actualNext then
        let bankroll2 := acc.bankroll + betSize * 0.95
        let ret := betSize * 0.95 / bankroll2
        let peak2 := max acc.peak bankroll2
        let dd := (peak2 - bankroll2) / peak2
        .ok { meta := m2, correct := acc.correct + 1, bankroll := bankroll2,
              peak := peak2, maxDrawdown := max acc.maxDrawdown dd,
              returns := acc.returns ++ [ret],
              negativeReturns := acc.negativeReturns,
              details := acc.details ++
                [{ idx := i + 1, pred := res.pred, actual := actualNext,
                   conf := res.conf, bet := betSize, bankroll := bankroll2,
                   ret := ret }] }
      else
        let bankroll2 := acc.bankroll - betSize
        let ret := -betSize / bankroll2
        let peak2 := max acc.peak bankroll2
        let dd := (peak2 - bankroll2) / peak2
        .ok { meta := m2, correct := acc.correct, bankroll := bankroll2,
              peak := peak2, maxDrawdown := max acc.maxDrawdown dd,
              returns := acc.returns ++ [ret],
              negativeReturns := acc.negativeReturns ++ [ret],
              details := acc.details ++
                [{ idx := i + 1, pred := res.pred, actual := actualNext,
                   conf := res.conf, bet := betSize, bankroll := bankroll2,
                   ret := ret }] }

/-- overallBacktest (server.js lines 1385–1425): as in part_000 but the
minimum sample floor is `30` and the report carries a Sortino ratio. -/
noncomputable def overallBacktest (st : MetaState) (hist : List Round)
    (lookback : ℤ) (betUnit : ℚ) : Except JsErr BtReport × MetaState :=
  let n : ℤ := min lookback ((hist.length : ℤ) - 1)
  if n ≤ 30 then
    (.ok { acc := 0, sample := n, bankroll := none, roi := 0,
           maxDrawdown := 0, sharpe := 0, sortino := 0, details := [] }, st)
  else
    let start : ℕ := hist.length - 1 - n.toNat
    match (List.range' start n.toNat).foldlM (btStep hist betUnit)
        { meta := st, correct := 0, bankroll := 1000, peak := 1000,
          maxDrawdown := 0, returns := [], negativeReturns := [],
          details := [] } with
    | .error e => (.error e, st)
    | .ok a =>
      let meanRet := avg a.returns
      let sdRet : ℝ := Real.sqrt ((variance a.returns : ℚ) : ℝ)
      let sdNeg : ℝ := Real.sqrt ((variance a.negativeReturns : ℚ) : ℝ)
      (.ok { acc := (a.correct : ℚ) / (n : ℚ), sample := n,
             bankroll := some a.bankroll,
             roi := (a.bankroll - 1000) / 1000,
             maxDrawdown := a.maxDrawdown,
             sharpe := if 0 < sdRet then ((meanRet : ℚ) : ℝ) / sdRet else 0,
             sortino := if 0 < sdNeg then ((meanRet : ℚ) : ℝ) / sdNeg else 0,
             details := lastN a.details 200 }, st)

end Srv

/-- The mutable environment visible to a top-level call: the history
array handed in by the caller and the module-level logistic state. -/
structure Store where
  hist : List Round
  meta : MetaState

/-- Store-level part_000 `ensemblePredict`: the body applies only
non-mutating operations to the history (`map`, `slice`, `at`, `filter`,
`length` reads), so the translation returns the history component of the
store unchanged; the logistic state comes back as the function leaves it. -/
def P0.ensemblePredictS (s : Store) : Except JsErr Forecast × Store :=
  let r := P0.ensemblePredict s.meta (some s.hist)
  (r.1, { hist := s.hist, meta := r.2 })

/-- Store-level part_000 `overallBacktest`: the body reads the history
only through `slice` and indexing, so the history component returns
unchanged. -/
noncomputable def P0.overallBacktestS (s : Store) (lookback : ℤ)
    (betUnit : ℚ) : Except JsErr P0.BtReport × Store :=
  let r := P0.overallBacktest s.meta s.hist lookback betUnit
  (r.1, { hist := s.hist, meta := r.2 })

/-- Store-level server.js `ensemblePredict` (same mutation audit as the
part_000 variant). -/
def Srv.ensemblePredictS (s : Store) : Except JsErr Forecast × Store :=
  let r := Srv.ensemblePredict s.meta (some s.hist)
  (r.1, { hist := s.hist, meta := r.2 })

/-- Store-level server.js `overallBacktest` (same mutation audit as the
part_000 variant). -/
noncomputable def Srv.overallBacktestS (s : Store) (lookback : ℤ)
    (betUnit : ℚ) : Except JsErr Srv.BtReport × Store :=
  let r := Srv.overallBacktest s.meta s.hist lookback betUnit
  (r.1, { hist := s.hist, meta := r.2 })

/-- A concrete logistic state used for closed evaluation theorems
(weights all zero, unwarmed); theorems about behaviour quantify over
arbitrary states since the JS constructor randomizes the weights. -/
def initMeta : MetaState := { w := fun _ => 0, bias := 0, warmed := false }

/-- The shape of a successful low-confidence fallback result: an `ok`
forecast predicting `expected`, confidence at most `0.6`, and a
non-empty rationale list. -/
def fallbackOk (result : Except JsErr Forecast) (expected : Outcome) : Prop :=
  ∃ f : Forecast, result = .ok f ∧ f.pred = expected ∧
    f.conf ≤ 0.6 ∧ f.why ≠ []

/-- The Kelly fraction as computed by both `kellyBetSize` variants:
`(payout·p − (1−p)) / payout` with `p` the confidence clamped into
`[0.01, 0.99]`. -/
def kellyFractionOf (confidence payout : ℚ) : ℚ :=
  let p := max 0.01 (min 0.99 confidence)
  (payout * p - (1 - p)) / payout

/-- A raw row with impossible dice (`7,7,7`) and a total that does not
match their sum: part_000's `shapeHistory` accepts it anyway. -/
def badRaw : RawRound :=
  { Phien := some 1, Xuc_xac_1 := some 7, Xuc_xac_2 := some 7,
    Xuc_xac_3 := some 7, Tong := some 10, Ket_qua := some "T" }

/-- A well-formed raw row used to witness the shape invariants. -/
def goodRaw : RawRound :=
  { Phien := some 1, Xuc_xac_1 := some 2, Xuc_xac_2 := some 3,
    Xuc_xac_3 := some 4, Tong := some 9, Ket_qua := some "T" }

/-- The shaped round produced from `goodRaw`. -/
def goodRound : Round :=
  { phien := 1, d1 := 2, d2 := 3, d3 := 4, tong := 9,
    ket_qua := Outcome.T }

/-- C1 counterexample: on a null history the part_000 `ensemblePredict`
does not return its fallback — `hist.at(-1)` dereferences the null
value and throws a TypeError, contradicting the claim that the function
never throws for a null history. -/
theorem C1_null_history_raises :
    (P0.ensemblePredict initMeta none).1 = Except.error JsErr.typeError :=
  rfl

/-- C1 (amended): for every non-null history shorter than the minimum
(10 rounds in part_000, 15 in server.js) `ensemblePredict` bypasses the
predictors and returns the last known outcome (`T` when the history is
empty) with confidence exactly `0.6` (hence `≤ 0.6`) and a non-empty
rationale without throwing; the server.js variant also returns this
fallback on a null history, while the part_000 variant throws a
TypeError there (see the counterexample). -/
theorem C1_short_history_fallback (st : MetaState) (h : List Round) :
    (h.length < 10 →
      fallbackOk (P0.ensemblePredict st (some h)).1
        ((h.getLast?.map Round.ket_qua).getD Outcome.T)) ∧
    (h.length < 15 →
      fallbackOk (Srv.ensemblePredict st (some h)).1
        ((h.getLast?.map Round.ket_qua).getD Outcome.T)) ∧
    fallbackOk (Srv.ensemblePredict st none).1 Outcome.T := by
  refine ⟨fun hl => ⟨{ pred := (h.getLast?.map Round.ket_qua).getD Outcome.T,
                       conf := 0.6,
                       why := ["Khong du du lieu, fallback Super VIP"] },
                     ?_, rfl, by norm_num, by simp⟩,
          fun hl => ⟨{ pred := (h.getLast?.map Round.ket_qua).getD Outcome.T,
                       conf := 0.6,
                       why := ["Khong du du lieu, fallback"] },
                     ?_, rfl, by norm_num, by simp⟩,
          ⟨{ pred := Outcome.T, conf := 0.6,
             why := ["Khong du du lieu, fallback"] },
           rfl, rfl, by norm_num, by simp⟩⟩
  · simp only [P0.ensemblePredict]
    rw [if_pos hl]
  · simp only [Srv.ensemblePredict]
    rw [if_pos hl]

/-- C1 witness: the empty history is below both thresholds and receives
the fallback forecast from both variants. -/
theorem C1_short_history_fallback_witness :
    ([] : List Round).length < 10 ∧
    fallbackOk (P0.ensemblePredict initMeta (some [])).1 Outcome.T :=
  ⟨by decide, (C1_short_history_fallback initMeta []).1 (by decide)⟩

/-- C2: the claim that every history yields a confidence in
`[0.5, 0.99]` fails because for any history at or above the minimum
length the main path of `ensemblePredict` raises a ReferenceError
(undeclared `f_freqT_5` etc. in the return object of
`extractFeaturesForEnsemble`) and returns no confidence at all; shown
here on a concrete 10-round (part_000) and 15-round (server.js)
history.  Only the short-history fallback, with confidence exactly
`0.6`, ever returns. -/
theorem C2_main_path_raises :
    (P0.ensemblePredict initMeta (some (altHist 10 Outcome.T))).1 =
      Except.error JsErr.referenceError ∧
    (Srv.ensemblePredict initMeta (some (altHist 15 Outcome.T))).1 =
      Except.error JsErr.referenceError :=
  ⟨rfl, rfl⟩

/-- C3 counterexample: with confidence `0.99`, payout `0.95`, bankroll
`1`, base unit `1`, the part_000 Kelly sizing returns `1`, which
exceeds the capped fraction `0.25 · 1` of the bankroll, refuting the
claim that the bet never exceeds the capped fraction. -/
theorem C3_unit_floor_exceeds_cap :
    P0.kellyBetSize 0.99 0.95 1 1 = 1 ∧
    ¬(P0.kellyBetSize 0.99 0.95 1 1 ≤ 0.25 * 1) := by
  norm_num [P0.kellyBetSize, jsRound, max_def, min_def]

/-- C3 (amended): whenever the Kelly fraction `k` is non-positive both
variants return the configured `baseUnit` unchanged; when `k` is
positive the bet is `max(1, round(bankroll · min(cap, k)))` with cap
`0.25` (part_000) or `0.2` (server.js), which is at least 1 unit but
may exceed the capped fraction of the bankroll — by up to `1/2` from
rounding and, for small bankrolls, because of the 1-unit floor — and
never exceeds `max(1, cap·bankroll + 1/2)`. -/
theorem C3_kelly_sizing (conf payout bankroll baseUnit : ℚ)
    (hb : 0 ≤ bankroll) :
    (kellyFractionOf conf payout ≤ 0 →
      P0.kellyBetSize conf payout bankroll baseUnit = baseUnit ∧
      Srv.kellyBetSize conf payout bankroll baseUnit = baseUnit) ∧
    (0 < kellyFractionOf conf payout →
      1 ≤ P0.kellyBetSize conf payout bankroll baseUnit ∧
      P0.kellyBetSize conf payout bankroll baseUnit ≤
        max 1 (0.25 * bankroll + 1 / 2) ∧
      1 ≤ Srv.kellyBetSize conf payout bankroll baseUnit ∧
      Srv.kellyBetSize conf payout bankroll baseUnit ≤
        max 1 (0.2 * bankroll + 1 / 2)) := by
  have hp0 : P0.kellyBetSize conf payout bankroll baseUnit =
      if kellyFractionOf conf payout ≤ 0 then baseUnit
      else max 1 ((jsRound (bankroll *
        min 0.25 (kellyFractionOf conf payout)) : ℚ)) := rfl
  have hsrv : Srv.kellyBetSize conf payout bankroll baseUnit =
      if kellyFractionOf conf payout ≤ 0 then baseUnit
      else max 1 ((jsRound (bankroll *
        min 0.2 (kellyFractionOf conf payout)) : ℚ)) := rfl
  have hcap : ∀ cap : ℚ,
      (jsRound (bankroll * min cap (kellyFractionOf conf payout)) : ℚ) ≤
        cap * bankroll + 1 / 2 := by
    intro cap
    have h1 : (jsRound (bankroll *
        min cap (kellyFractionOf conf payout)) : ℚ) ≤
        bankroll * min cap (kellyFractionOf conf payout) + 1 / 2 := by
      have hfl := Int.floor_le
        (bankroll * min cap (kellyFractionOf conf payout) + 1 / 2)
      simpa [jsRound] using hfl
    have h2 : bankroll * min cap (kellyFractionOf conf payout) ≤
        cap * bankroll := by
      have hm := mul_le_mul_of_nonneg_left
        (min_le_left cap (kellyFractionOf conf payout)) hb
      calc bankroll * min cap (kellyFractionOf conf payout)
          ≤ bankroll * cap := hm
        _ = cap * bankroll := mul_comm _ _
    linarith
  constructor
  · intro hk
    exact ⟨by rw [hp0, if_pos hk], by rw [hsrv, if_pos hk]⟩
  · intro hk
    have hk0 : ¬(kellyFractionOf conf payout ≤ 0) := not_le.mpr hk
    refine ⟨?_, ?_, ?_, ?_⟩
    · rw [hp0, if_neg hk0]
      exact le_max_left _ _
    · rw [hp0, if_neg hk0]
      exact max_le_max le_rfl (hcap 0.25)
    · rw [hsrv, if_neg hk0]
      exact le_max_left _ _
    · rw [hsrv, if_neg hk0]
      exact max_le_max le_rfl (hcap 0.2)

/-- C3 witness: at confidence `0.9`, payout `0.95`, bankroll `1000`,
the Kelly fraction is positive and the amended bounds apply. -/
theorem C3_kelly_sizing_witness :
    0 < kellyFractionOf 0.9 0.95 ∧
    (1 ≤ P0.kellyBetSize 0.9 0.95 1000 1 ∧
     P0.kellyBetSize 0.9 0.95 1000 1 ≤ max 1 (0.25 * 1000 + 1 / 2) ∧
     1 ≤ Srv.kellyBetSize 0.9 0.95 1000 1 ∧
     Srv.kellyBetSize 0.9 0.95 1000 1 ≤ max 1 (0.2 * 1000 + 1 / 2)) :=
  ⟨by norm_num [kellyFractionOf, max_def, min_def],
   (C3_kelly_sizing 0.9 0.95 1000 1 (by norm_num)).2
     (by norm_num [kellyFractionOf, max_def, min_def])⟩

/-- C4: whenever the effective sample size `n = min(lookback,
|history|−1)` is at or below the minimum sample floor (20 in part_000,
30 in server.js), `overallBacktest` short-circuits with the neutral
report — accuracy 0, roi 0, max drawdown 0, Sharpe 0 (and Sortino 0),
empty detail list, null bankroll — leaving the logistic state untouched
and running no walk-forward step. -/
theorem C4_backtest_short_circuit (st : MetaState) (hist : List Round)
    (lookback : ℤ) (betUnit : ℚ) :
    (min lookback ((hist.length : ℤ) - 1) ≤ 20 →
      P0.overallBacktest st hist lookback betUnit =
        (.ok { acc := 0, sample := min lookback ((hist.length : ℤ) - 1),
               bankroll := none, roi := 0, maxDrawdown := 0, sharpe := 0,
               details := [] }, st)) ∧
    (min lookback ((hist.length : ℤ) - 1) ≤ 30 →
      Srv.overallBacktest st hist lookback betUnit =
        (.ok { acc := 0, sample := min lookback ((hist.length : ℤ) - 1),
               bankroll := none, roi := 0, maxDrawdown := 0, sharpe := 0,
               sortino := 0, details := [] }, st)) := by
  constructor
  · intro hn
    simp only [P0.overallBacktest]
    rw [if_pos hn]
  · intro hn
    simp only [Srv.overallBacktest]
    rw [if_pos hn]

/-- C4 witness: the empty history with lookback 0 has effective sample
size `−1`, below both floors, and receives the neutral report. -/
theorem C4_backtest_short_circuit_witness :
    min (0 : ℤ) ((([] : List Round).length : ℤ) - 1) ≤ 20 ∧
    P0.overallBacktest initMeta [] 0 1 =
      (.ok { acc := 0, sample := min (0 : ℤ) ((([] : List Round).length : ℤ) - 1),
             bankroll := none, roi := 0, maxDrawdown := 0, sharpe := 0,
             details := [] }, initMeta) :=
  ⟨by decide, (C4_backtest_short_circuit initMeta [] 0 1).1 (by decide)⟩

/-- Length of the alternating sequence builder. -/
@[simp] theorem altUp_length (n : ℕ) (o : Outcome) : (altUp n o).length = n := by
  induction n generalizing o with
  | zero => rfl
  | succ m ih => simp [altUp, ih]

/-- C5: the round-trip accuracy property is vacuous because whenever
`overallBacktest` enters its walk-forward loop it raises the
`extractFeaturesForEnsemble` ReferenceError (on the first step whose
prefix reaches the ensemble minimum length) instead of producing a
report: shown on a 32-round history with lookback 21 (part_000,
floor 20) and a 46-round history with lookback 31 (server.js,
floor 30), where the very first loop iteration raises. -/
theorem C5_backtest_loop_raises :
    (P0.overallBacktest initMeta (altHist 32 Outcome.T) 21 1).1 =
      Except.error JsErr.referenceError ∧
    (Srv.overallBacktest initMeta (altHist 46 Outcome.T) 31 1).1 =
      Except.error JsErr.referenceError :=
  ⟨rfl, rfl⟩

/-- C8: the claim that `skewness` and `kurtosis` never yield a
non-finite value fails on constant sequences: with all central moments
zero the unguarded divisions evaluate to `0/0`, i.e. `NaN` (modelled as
`none`), unlike the guarded `variance`/`zScoreLast`/`autocorr`. -/
theorem C8_moment_ratios_nan :
    kurtosis [5, 5, 5, 5] = none ∧ skewness [5, 5, 5] = none := by
  constructor
  · norm_num [kurtosis, avg, sumQ, List.cons_ne_nil]
  · norm_num [skewness, avg, sumQ, List.cons_ne_nil]

/-- C9 counterexample: the part_000 `shapeHistory` keeps a row whose
dice lie outside `[1,6]` and whose total differs from the dice sum, so
the claim that every output round satisfies the dice invariants fails
for that variant. -/
theorem C9_invalid_dice_pass :
    P0.shapeHistory [badRaw] =
      [{ phien := 1, d1 := 7, d2 := 7, d3 := 7, tong := 10,
         ket_qua := Outcome.T }] ∧
    ¬((7 : ℚ) + 7 + 7 = 10) ∧ ¬((7 : ℚ) ≤ 6) := by
  refine ⟨?_, by norm_num, by norm_num⟩
  have hn : normResult (some "T") = some Outcome.T := by decide
  simp [P0.shapeHistory, badRaw, hn, List.mergeSort_singleton]

/-- Sorting by the comparator `(a, b) => a.phien − b.phien` yields a
list pairwise nondecreasing in `phien`. -/
theorem pairwise_phien_mergeSort (l : List Round) :
    (l.mergeSort (fun x y => decide (x.phien ≤ y.phien))).Pairwise
      (fun a b => a.phien ≤ b.phien) := by
  have htrans : ∀ a b c : Round,
      (fun x y : Round => decide (x.phien ≤ y.phien)) a b = true →
      (fun x y : Round => decide (x.phien ≤ y.phien)) b c = true →
      (fun x y : Round => decide (x.phien ≤ y.phien)) a c = true := by
    intro a b c hab hbc
    exact decide_eq_true
      (le_trans (of_decide_eq_true hab) (of_decide_eq_true hbc))
  have htotal : ∀ a b : Round,
      ((fun x y : Round => decide (x.phien ≤ y.phien)) a b ||
       (fun x y : Round => decide (x.phien ≤ y.phien)) b a) = true := by
    intro a b
    rcases le_total a.phien b.phien with h | h <;> simp [h]
  have hs := List.sorted_mergeSort htrans htotal l
  exact hs.imp (fun hab => of_decide_eq_true hab)

/-- C9 (amended): in the server.js variant every shaped round has dice
in `[1,6]` summing to `tong` (and, by type, outcome `T` or `X`), and
both variants emit their output sorted nondecreasing in `phien`; the
part_000 variant checks only field presence and outcome parseability,
so its output can violate the dice invariants (see the
counterexample). -/
theorem C9_shape_invariants :
    (∀ raw : List RawRound, ∀ r ∈ Srv.shapeHistory raw,
      (1 ≤ r.d1 ∧ r.d1 ≤ 6) ∧ (1 ≤ r.d2 ∧ r.d2 ≤ 6) ∧
      (1 ≤ r.d3 ∧ r.d3 ≤ 6) ∧ r.tong = r.d1 + r.d2 + r.d3) ∧
    (∀ raw : List RawRound,
      (Srv.shapeHistory raw).Pairwise (fun a b => a.phien ≤ b.phien)) ∧
    (∀ raw : List RawRound,
      (P0.shapeHistory raw).Pairwise (fun a b => a.phien ≤ b.phien)) := by
  refine ⟨?_, fun raw => pairwise_phien_mergeSort _,
          fun raw => pairwise_phien_mergeSort _⟩
  intro raw r hr
  have hr2 : r ∈ raw.filterMap (fun r =>
      match r.Phien, r.Xuc_xac_1, r.Xuc_xac_2, r.Xuc_xac_3, r.Tong,
          normResult r.Ket_qua with
      | some ph, some a, some b, some c, some t, some o =>
        if 1 ≤ a ∧ a ≤ 6 ∧ 1 ≤ b ∧ b ≤ 6 ∧ 1 ≤ c ∧ c ≤ 6 ∧ t = a + b + c then
          some { phien := ph, d1 := a, d2 := b, d3 := c, tong := t,
                 ket_qua := o }
        else none
      | _, _, _, _, _, _ => none) :=
    (List.mergeSort_perm _ _).mem_iff.mp hr
  rw [List.mem_filterMap] at hr2
  obtain ⟨a, -, ha⟩ := hr2
  split at ha
  case _ ph x1 x2 x3 tg o =>
    split at ha
    case isTrue hcond =>
      obtain rfl : _ = r := Option.some.inj ha
      exact ⟨⟨hcond.1, hcond.2.1⟩, ⟨hcond.2.2.1, hcond.2.2.2.1⟩,
             ⟨hcond.2.2.2.2.1, hcond.2.2.2.2.2.1⟩, hcond.2.2.2.2.2.2⟩
    case isFalse _ => exact Option.noConfusion ha
  case _ => exact Option.noConfusion ha

/-- C9 witness: the well-formed row survives server.js shaping and the
amended invariants hold for it. -/
theorem C9_shape_invariants_witness :
    goodRound ∈ Srv.shapeHistory [goodRaw] ∧
    ((1 ≤ goodRound.d1 ∧ goodRound.d1 ≤ 6) ∧
     (1 ≤ goodRound.d2 ∧ goodRound.d2 ≤ 6) ∧
     (1 ≤ goodRound.d3 ∧ goodRound.d3 ≤ 6) ∧
     goodRound.tong = goodRound.d1 + goodRound.d2 + goodRound.d3) := by
  have hm : goodRound ∈ Srv.shapeHistory [goodRaw] := by
    have hn : normResult (some "T") = some Outcome.T := by decide
    have he : Srv.shapeHistory [goodRaw] = [goodRound] := by
      norm_num [Srv.shapeHistory, goodRaw, goodRound, hn,
        List.filterMap_cons, List.filterMap_nil, List.mergeSort_singleton]
    rw [he]
    exact List.mem_singleton_self _
  exact ⟨hm, C9_shape_invariants.1 [goodRaw] goodRound hm⟩

/-- The part_000 `ensemblePredict` leaves the module-level logistic
state untouched on every path (the warm-up aborts on its first feature
extraction before any weight update). -/
theorem P0_ensemblePredict_meta (st : MetaState) (h : Option (List Round)) :
    (P0.ensemblePredict st h).2 = st := by
  cases h with
  | none => rfl
  | some l =>
    simp only [P0.ensemblePredict]
    split
    · rfl
    · split <;> rfl

/-- The server.js `ensemblePredict` leaves the module-level logistic
state untouched on every path. -/
theorem Srv_ensemblePredict_meta (st : MetaState) (h : Option (List Round)) :
    (Srv.ensemblePredict st h).2 = st := by
  cases h with
  | none => rfl
  | some l =>
    simp only [Srv.ensemblePredict]
    split <;> rfl

/-- The part_000 `overallBacktest` leaves the module-level logistic
state untouched on every path. -/
theorem P0_overallBacktest_meta (st : MetaState) (hist : List Round)
    (lookback : ℤ) (betUnit : ℚ) :
    (P0.overallBacktest st hist lookback betUnit).2 = st := by
  simp only [P0.overallBacktest]
  split
  · rfl
  · split <;> rfl

/-- The server.js `overallBacktest` leaves the module-level logistic
state untouched on every path. -/
theorem Srv_overallBacktest_meta (st : MetaState) (hist : List Round)
    (lookback : ℤ) (betUnit : ℚ) :
    (Srv.overallBacktest st hist lookback betUnit).2 = st := by
  simp only [Srv.overallBacktest]
  split
  · rfl
  · split <;> rfl

/-- C10: neither `overallBacktest` nor `ensemblePredict` modifies the
history handed to it — the store after a call carries the identical
history — and the module-level logistic meta-learner state is the only
other store component either function could touch; in fact (because the
warm-up raises before its first weight update) even that state is
returned unchanged, which satisfies the claimed upper bound on the
mutation footprint. -/
theorem C10_no_history_mutation (s : Store) (lookback : ℤ) (betUnit : ℚ) :
    ((P0.ensemblePredictS s).2.hist = s.hist ∧
     (P0.ensemblePredictS s).2.meta = s.meta) ∧
    ((P0.overallBacktestS s lookback betUnit).2.hist = s.hist ∧
     (P0.overallBacktestS s lookback betUnit).2.meta = s.meta) ∧
    ((Srv.ensemblePredictS s).2.hist = s.hist ∧
     (Srv.ensemblePredictS s).2.meta = s.meta) ∧
    ((Srv.overallBacktestS s lookback betUnit).2.hist = s.hist ∧
     (Srv.overallBacktestS s lookback betUnit).2.meta = s.meta) :=
  ⟨⟨rfl, P0_ensemblePredict_meta s.meta (some s.hist)⟩,
   ⟨rfl, P0_overallBacktest_meta s.meta s.hist lookback betUnit⟩,
   ⟨rfl, Srv_ensemblePredict_meta s.meta (some s.hist)⟩,
   ⟨rfl, Srv_overallBacktest_meta s.meta s.hist lookback betUnit⟩⟩

/-- Flipping an outcome twice is the identity. -/
@[simp] theorem flip_flip (o : Outcome) : o.flip.flip = o := by
  cases o <;> rfl

/-- Unfolding two steps of the alternation builder. -/
theorem altUp_two_add (k : ℕ) (o : Outcome) :
    altUp (k + 2) o = o :: o.flip :: altUp k o := by
  simp [altUp]

/-- A balanced alternation of even length `2m` contains exactly `m`
occurrences of `T`. -/
theorem altUp_count_T (m : ℕ) (o : Outcome) :
    (altUp (2 * m) o).count Outcome.T = m := by
  induction m generalizing o with
  | zero => rfl
  | succ k ih =>
    have h2 : 2 * (k + 1) = 2 * k + 2 := by ring
    rw [h2, altUp_two_add]
    cases o <;> simp [List.count_cons, ih, Outcome.flip]

/-- The epsilon-shifted binary logarithm is strictly positive. -/
theorem logb_one_add_pos {x : ℝ} (hx : 0 < x) :
    0 < Real.logb 2 (1 + x) :=
  Real.logb_pos (by norm_num) (by linarith)

/-- Linear upper bound on the epsilon-shifted binary logarithm. -/
theorem logb_one_add_le {x : ℝ} (hx : 0 ≤ x) :
    Real.logb 2 (1 + x) ≤ 1.5 * x := by
  have h2 : (0.6931471803 : ℝ) < Real.log 2 := Real.log_two_gt_d9
  have hlog : Real.log (1 + x) ≤ x := by
    have h := Real.log_le_sub_one_of_pos (show (0:ℝ) < 1 + x by linarith)
    linarith
  have hpos : (0:ℝ) < Real.log 2 := by linarith
  simp only [Real.logb]
  rw [div_le_iff₀ hpos]
  nlinarith [mul_nonneg hx (show (0:ℝ) ≤ 1.5 * Real.log 2 - 1 by nlinarith)]

/-- entropy of a non-empty all-identical sequence: the epsilon sits
inside the logarithm, so the value is `−log2(1 + 1e-10)`, not `0`. -/
theorem entropy_replicate (n : ℕ) (o : Outcome) (hn : 1 ≤ n) :
    entropy (List.replicate n o) = -(Real.logb 2 (1 + 1e-10)) := by
  have hne : List.replicate n o ≠ [] := by
    intro h
    have hl := congrArg List.length h
    simp at hl
    omega
  have hn0 : ((n : ℝ)) ≠ 0 := Nat.cast_ne_zero.mpr (by omega)
  cases o with
  | T =>
    have hcnt : List.count Outcome.T (List.replicate n Outcome.T) = n := by
      simp [List.count_replicate]
    simp only [entropy, hne, if_false, hcnt, List.length_replicate]
    rw [div_self hn0]
    norm_num
  | X =>
    have hcnt : List.count Outcome.T (List.replicate n Outcome.X) = 0 := by
      simp [List.count_replicate]
    simp only [entropy, hne, if_false, hcnt, List.length_replicate]
    norm_num

/-- entropy of a balanced alternation of even length: the epsilon sits
inside the logarithm, so the value is `1 − log2(1 + 2e-10)`, strictly
below the claimed maximum of `1`. -/
theorem entropy_altUp_even (m : ℕ) (o : Outcome) (hm : 1 ≤ m) :
    entropy (altUp (2 * m) o) = 1 - Real.logb 2 (1 + 2e-10) := by
  have hne : altUp (2 * m) o ≠ [] := by
    intro h
    have hl := congrArg List.length h
    simp [altUp_length] at hl
    omega
  have hm0 : ((m : ℝ)) ≠ 0 := Nat.cast_ne_zero.mpr (by omega)
  have hhalf : ((altUp (2 * m) o).count Outcome.T : ℝ) /
      ((altUp (2 * m) o).length : ℝ) = 1 / 2 := by
    rw [altUp_count_T, altUp_length]
    push_cast
    field_simp
    ring
  simp only [entropy, hne, if_false, hhalf]
  have harg1 : (1 : ℝ) / 2 + 1e-10 = (1 + 2e-10) / 2 := by norm_num
  have harg2 : (1 : ℝ) - 1 / 2 + 1e-10 = (1 + 2e-10) / 2 := by norm_num
  have hlogdiv : Real.logb 2 ((1 + 2e-10) / 2) =
      Real.logb 2 (1 + 2e-10) - 1 := by
    rw [Real.logb_div (by norm_num) (by norm_num)]
    rw [Real.logb_self_eq_one (by norm_num)]
  rw [harg1, harg2, hlogdiv]
  ring

/-- C7 counterexample: entropy is not `0` on the all-identical
singleton `[T]` (it is `−log2(1 + 1e-10) < 0`), and not `1` on the
balanced alternating `[T, X]` (it is `1 − log2(1 + 2e-10) < 1`): the
claimed exact endpoint values are never attained. -/
theorem C7_endpoints_missed :
    entropy [Outcome.T] ≠ 0 ∧ entropy [Outcome.T, Outcome.X] ≠ 1 := by
  have hpos1 : 0 < Real.logb 2 (1 + 1e-10) := logb_one_add_pos (by norm_num)
  have hpos2 : 0 < Real.logb 2 (1 + 2e-10) := logb_one_add_pos (by norm_num)
  constructor
  · have h1 : entropy [Outcome.T] = -(Real.logb 2 (1 + 1e-10)) := by
      have := entropy_replicate 1 Outcome.T (by omega)
      simpa using this
    rw [h1]
    intro h
    rw [neg_eq_zero] at h
    exact absurd h (ne_of_gt hpos1)
  · have h2 : entropy [Outcome.T, Outcome.X] =
        1 - Real.logb 2 (1 + 2e-10) := by
      have := entropy_altUp_even 1 Outcome.T (by omega)
      simpa [altUp, Outcome.flip] using this
    rw [h2]
    intro h
    have : Real.logb 2 (1 + 2e-10) = 0 := by linarith
    exact absurd this (ne_of_gt hpos2)

/-- C7 (amended): entropy is exactly `0` on the empty sequence; on a
non-empty all-identical sequence it is `−log2(1 + 1e-10)` — negative,
within `1e-9` of `0` but not `0`; on an exactly 50/50 maximally
alternating sequence of even length `≥ 2` it is `1 − log2(1 + 2e-10)` —
within `1e-9` of the 1.0-bit maximum but strictly below it.  The
additive epsilon sits inside `log2`, so the exact endpoint values of
the claim are never attained. -/
theorem C7_entropy_values :
    entropy ([] : List Outcome) = 0 ∧
    (∀ (n : ℕ) (o : Outcome), 1 ≤ n →
      entropy (List.replicate n o) = -(Real.logb 2 (1 + 1e-10)) ∧
      entropy (List.replicate n o) < 0 ∧
      |entropy (List.replicate n o)| ≤ 1e-9) ∧
    (∀ (m : ℕ) (o : Outcome), 1 ≤ m →
      entropy (altUp (2 * m) o) = 1 - Real.logb 2 (1 + 2e-10) ∧
      entropy (altUp (2 * m) o) < 1 ∧
      1 - 1e-9 ≤ entropy (altUp (2 * m) o)) := by
  have hpos1 : 0 < Real.logb 2 (1 + 1e-10) := logb_one_add_pos (by norm_num)
  have hpos2 : 0 < Real.logb 2 (1 + 2e-10) := logb_one_add_pos (by norm_num)
  have hle1 : Real.logb 2 (1 + 1e-10) ≤ 1.5e-10 := by
    have := logb_one_add_le (show (0:ℝ) ≤ 1e-10 by norm_num)
    linarith
  have hle2 : Real.logb 2 (1 + 2e-10) ≤ 3e-10 := by
    have := logb_one_add_le (show (0:ℝ) ≤ 2e-10 by norm_num)
    linarith
  refine ⟨rfl, fun n o hn => ?_, fun m o hm => ?_⟩
  · have he := entropy_replicate n o hn
    refine ⟨he, ?_, ?_⟩
    · rw [he]
      linarith
    · rw [he, abs_neg, abs_of_pos hpos1]
      linarith
  · have he := entropy_altUp_even m o hm
    exact ⟨he, by rw [he]; linarith, by rw [he]; linarith⟩

/-- C7 witness: the singleton all-`T` sequence and the length-2
alternation instantiate the amended entropy values. -/
theorem C7_entropy_values_witness :
    (1 : ℕ) ≤ 1 ∧
    (entropy (List.replicate 1 Outcome.T) = -(Real.logb 2 (1 + 1e-10)) ∧
     entropy (List.replicate 1 Outcome.T) < 0 ∧
     |entropy (List.replicate 1 Outcome.T)| ≤ 1e-9) ∧
    (entropy (altUp (2 * 1) Outcome.X) = 1 - Real.logb 2 (1 + 2e-10) ∧
     entropy (altUp (2 * 1) Outcome.X) < 1 ∧
     1 - 1e-9 ≤ entropy (altUp (2 * 1) Outcome.X)) :=
  ⟨le_refl 1,
   C7_entropy_values.2.1 1 Outcome.T (le_refl 1),
   C7_entropy_values.2.2 1 Outcome.X (le_refl 1)⟩

/-- Zero alternation steps change nothing. -/
@[simp] theorem flipN_zero (o : Outcome) : flipN 0 o = o := rfl

/-- BEq on outcomes is propositional equality decided. -/
@[simp] theorem beq_outcome_TT : (Outcome.T == Outcome.T) = true := rfl

/-- BEq on outcomes is propositional equality decided. -/
@[simp] theorem beq_outcome_TX : (Outcome.T == Outcome.X) = false := rfl

/-- BEq on outcomes is propositional equality decided. -/
@[simp] theorem beq_outcome_XT : (Outcome.X == Outcome.T) = false := rfl

/-- BEq on outcomes is propositional equality decided. -/
@[simp] theorem beq_outcome_XX : (Outcome.X == Outcome.X) = true := rfl

/-- One alternation step from `o` is the tail alternation from `o.flip`. -/
theorem flipN_succ (n : ℕ) (o : Outcome) :
    flipN (n + 1) o = flipN n o.flip := by
  rcases Nat.mod_two_eq_zero_or_one n with h | h <;>
    simp [flipN, Nat.add_mod, h]

/-- Alternation steps compose additively. -/
theorem flipN_add (a b : ℕ) (o : Outcome) :
    flipN (a + b) o = flipN a (flipN b o) := by
  induction b generalizing o with
  | zero => rfl
  | succ k ih =>
    have h1 : a + (k + 1) = (a + k) + 1 := by ring
    rw [h1, flipN_succ, ih, flipN_succ]

/-- Dropping `k` elements of an alternation leaves the alternation
starting `k` steps later. -/
theorem altUp_drop (k : ℕ) :
    ∀ (n : ℕ) (o : Outcome),
      (altUp n o).drop k = altUp (n - k) (flipN k o) := by
  induction k with
  | zero => intro n o; simp
  | succ j ih =>
    intro n o
    cases n with
    | zero => simp [altUp]
    | succ m =>
      show ((o :: altUp m o.flip).drop (j + 1)) =
        altUp (m + 1 - (j + 1)) (flipN (j + 1) o)
      rw [List.drop_succ_cons, ih m o.flip, Nat.succ_sub_succ, flipN_succ]

/-- The trailing `n` elements of a length-`L` alternation. -/
theorem lastN_altUp (L n : ℕ) (o : Outcome) (h : n ≤ L) :
    lastN (altUp L o) n = altUp n (flipN (L - n) o) := by
  unfold lastN
  rw [altUp_length, altUp_drop]
  congr 1
  omega

/-- The length-3 alternation spelled out. -/
theorem altUp_three (a : Outcome) : altUp 3 a = [a, a.flip, a] := by
  cases a <;> rfl

/-- The length-4 alternation spelled out. -/
theorem altUp_four (a : Outcome) :
    altUp 4 a = [a, a.flip, a, a.flip] := by
  cases a <;> rfl

/-- Unfolding one step of the window-count recursion on an
alternation. -/
theorem countSub_altUp_succ (j : ℕ) (o : Outcome) (p : List Outcome) :
    countSub (altUp (j + 1) o) p =
      (if p.isPrefixOf (altUp (j + 1) o) then 1 else 0) +
        countSub (altUp j o.flip) p := rfl

/-- The 4-gram `T,X,T,T` (context `TXT` followed by `T`) never starts
an alternating sequence: it has two equal adjacent symbols. -/
theorem not_prefix_TXTT (m : ℕ) (o : Outcome) :
    ([Outcome.T, Outcome.X, Outcome.T, Outcome.T].isPrefixOf
      (altUp m o)) = false := by
  rcases m with _ | (_ | (_ | (_ | k)))
  · cases o <;> rfl
  · cases o <;> rfl
  · cases o <;> rfl
  · cases o <;> rfl
  · rw [show k + 1 + 1 + 1 + 1 = (k + 2) + 2 by ring, altUp_two_add,
      altUp_two_add]
    cases o <;> simp [List.isPrefixOf, Outcome.flip]

/-- The 4-gram `X,T,X,X` never starts an alternating sequence. -/
theorem not_prefix_XTXX (m : ℕ) (o : Outcome) :
    ([Outcome.X, Outcome.T, Outcome.X, Outcome.X].isPrefixOf
      (altUp m o)) = false := by
  rcases m with _ | (_ | (_ | (_ | k)))
  · cases o <;> rfl
  · cases o <;> rfl
  · cases o <;> rfl
  · cases o <;> rfl
  · rw [show k + 1 + 1 + 1 + 1 = (k + 2) + 2 by ring, altUp_two_add,
      altUp_two_add]
    cases o <;> simp [List.isPrefixOf, Outcome.flip]

/-- An alternating window never contains the context `TXT` followed by
`T`: the smoothed `txt_t` counter stays at its Laplace value `1`. -/
theorem countSub_TXTT_zero (m : ℕ) (o : Outcome) :
    countSub (altUp m o) [Outcome.T, Outcome.X, Outcome.T, Outcome.T] = 0 := by
  induction m generalizing o with
  | zero => rfl
  | succ j ih => simp [countSub_altUp_succ, not_prefix_TXTT, ih]

/-- An alternating window never contains the context `XTX` followed by
`X`. -/
theorem countSub_XTXX_zero (m : ℕ) (o : Outcome) :
    countSub (altUp m o) [Outcome.X, Outcome.T, Outcome.X, Outcome.X] = 0 := by
  induction m generalizing o with
  | zero => rfl
  | succ j ih => simp [countSub_altUp_succ, not_prefix_XTXX, ih]

/-- An alternation of length at least 4 starting with `T` contains the
4-gram `T,X,T,X` at its head. -/
theorem countSub_TXTX_head (k : ℕ) :
    1 ≤ countSub (altUp (k + 4) Outcome.T)
      [Outcome.T, Outcome.X, Outcome.T, Outcome.X] := by
  rw [show k + 4 = (k + 2) + 2 by ring, altUp_two_add, altUp_two_add]
  simp [countSub, List.isPrefixOf, Outcome.flip]

/-- An alternation of length at least 4 starting with `X` contains the
4-gram `X,T,X,T` at its head. -/
theorem countSub_XTXT_head (k : ℕ) :
    1 ≤ countSub (altUp (k + 4) Outcome.X)
      [Outcome.X, Outcome.T, Outcome.X, Outcome.T] := by
  rw [show k + 4 = (k + 2) + 2 by ring, altUp_two_add, altUp_two_add]
  simp [countSub, List.isPrefixOf, Outcome.flip]

/-- Any alternation of length ≥ 5 contains the 4-gram `T,X,T,X`: the
smoothed `txt_x` counter strictly exceeds its Laplace value. -/
theorem countSub_TXTX_pos (M : ℕ) (o : Outcome) (hM : 5 ≤ M) :
    1 ≤ countSub (altUp M o) [Outcome.T, Outcome.X, Outcome.T, Outcome.X] := by
  cases o with
  | T =>
    obtain ⟨k, rfl⟩ : ∃ k, M = k + 4 := ⟨M - 4, by omega⟩
    exact countSub_TXTX_head k
  | X =>
    obtain ⟨k, rfl⟩ : ∃ k, M = (k + 4) + 1 := ⟨M - 5, by omega⟩
    rw [countSub_altUp_succ]
    have h := countSub_TXTX_head k
    simp only [Outcome.flip]
    omega

/-- Any alternation of length ≥ 5 contains the 4-gram `X,T,X,T`. -/
theorem countSub_XTXT_pos (M : ℕ) (o : Outcome) (hM : 5 ≤ M) :
    1 ≤ countSub (altUp M o) [Outcome.X, Outcome.T, Outcome.X, Outcome.T] := by
  cases o with
  | X =>
    obtain ⟨k, rfl⟩ : ∃ k, M = k + 4 := ⟨M - 4, by omega⟩
    exact countSub_XTXT_head k
  | T =>
    obtain ⟨k, rfl⟩ : ∃ k, M = (k + 4) + 1 := ⟨M - 5, by omega⟩
    rw [countSub_altUp_succ]
    have h := countSub_XTXT_head k
    simp only [Outcome.flip]
    omega

/-- The outcome column of an alternating shaped history. -/
@[simp] theorem altHist_map_ket (L : ℕ) (o : Outcome) :
    (altHist L o).map Round.ket_qua = altUp L o := by
  have h : Round.ket_qua ∘ roundOf = id := rfl
  simp [altHist, List.map_map, h]

/-- The last element of a non-empty alternation. -/
theorem altUp_getLast (L : ℕ) (o : Outcome) (h : 1 ≤ L) :
    (altUp L o).getLast? = some (flipN (L - 1) o) := by
  induction L generalizing o with
  | zero => omega
  | succ m ih =>
    cases m with
    | zero => rfl
    | succ j =>
      rw [show altUp (j + 1 + 1) o = o :: altUp (j + 1) o.flip from rfl]
      rw [List.getLast?_cons, ih o.flip (by omega), ← flipN_succ]
      rfl

/-- Flipping the start of an alternation flips its every symbol. -/
theorem flipN_flip (n : ℕ) (o : Outcome) :
    flipN n o.flip = (flipN n o).flip := by
  rcases Nat.mod_two_eq_zero_or_one n with h | h <;> simp [flipN, h]

/-- Core behaviour of the part_000 Markov predictor on a perfect
alternation of length at least 5: the `TTTT` lag-4 context never
matches, the lag-3 context is `TXT` or `XTX`, its continuation counter
is Laplace-smoothed with at least one real observation, and the
prediction is the opposite of the last symbol with winning probability
strictly between 1/2 and 1. -/
theorem markov_altHist_spec (L : ℕ) (o : Outcome) (hL : 5 ≤ L) :
    (P0.markovPrediction (altHist L o)).pred = flipN L o ∧
    1 / 2 < max (P0.markovPrediction (altHist L o)).pT
        (P0.markovPrediction (altHist L o)).pX ∧
    max (P0.markovPrediction (altHist L o)).pT
        (P0.markovPrediction (altHist L o)).pX < 1 := by
  set M := min L 200 with hMdef
  have hM5 : 5 ≤ M := le_min hL (by norm_num)
  have hML : M ≤ L := min_le_left _ _
  set o' := flipN (L - M) o with hoeq
  have huse : lastN ((altHist L o).map Round.ket_qua) 200 = altUp M o' := by
    rw [altHist_map_ket]
    unfold lastN
    rw [altUp_length, altUp_drop]
    have e1 : L - (L - 200) = M := by omega
    have e2 : L - 200 = L - M := by omega
    rw [e1, e2, ← hoeq]
  have h3 : 3 ≤ (altUp M o').length := by
    rw [altUp_length]; omega
  have hnot4 : ¬(4 ≤ (altUp M o').length ∧
      lastN (altUp M o') 4 =
        [Outcome.T, Outcome.T, Outcome.T, Outcome.T]) := by
    rintro ⟨-, h4⟩
    rw [lastN_altUp M 4 o' (by omega), altUp_four] at h4
    cases hb : flipN (M - 4) o' <;> rw [hb] at h4 <;>
      simp [Outcome.flip] at h4
  have hlast3 : lastN (altUp M o') 3 =
      [flipN (M - 3) o', (flipN (M - 3) o').flip, flipN (M - 3) o'] := by
    rw [lastN_altUp M 3 o' (by omega), altUp_three]
  have hb3 : flipN (M - 3) o' = flipN (L - 3) o := by
    rw [hoeq, ← flipN_add]
    have e : M - 3 + (L - M) = L - 3 := by omega
    rw [e]
  have hLo : flipN L o = (flipN (L - 3) o).flip := by
    have h33 : flipN 3 (flipN (L - 3) o) = (flipN (L - 3) o).flip := rfl
    rw [← h33, ← flipN_add]
    have e : 3 + (L - 3) = L := by omega
    rw [e]
  set cT := countSub (altUp M o')
    [Outcome.T, Outcome.X, Outcome.T, Outcome.X] with hcTdef
  set cX := countSub (altUp M o')
    [Outcome.X, Outcome.T, Outcome.X, Outcome.T] with hcXdef
  have hcT1 : (1 : ℚ) ≤ (cT : ℚ) := by
    have := countSub_TXTX_pos M o' hM5
    rw [← hcTdef] at this
    exact_mod_cast this
  have hcX1 : (1 : ℚ) ≤ (cX : ℚ) := by
    have := countSub_XTXT_pos M o' hM5
    rw [← hcXdef] at this
    exact_mod_cast this
  have hdT : (0 : ℚ) < 2 + (cT : ℚ) := by linarith
  have hdX : (0 : ℚ) < 2 + (cX : ℚ) := by linarith
  have hkeyT : (P0.markovPrediction (altHist L o)).pT =
      (P0.markovProbs (altUp M o')).1 := by
    simp only [P0.markovPrediction, huse]
  have hkeyX : (P0.markovPrediction (altHist L o)).pX =
      (P0.markovProbs (altUp M o')).2 := by
    simp only [P0.markovPrediction, huse]
  have hkeyP : (P0.markovPrediction (altHist L o)).pred =
      (if (P0.markovProbs (altUp M o')).2 ≤
          (P0.markovProbs (altUp M o')).1
       then Outcome.T else Outcome.X) := by
    simp only [P0.markovPrediction, huse]
  cases hb : flipN (M - 3) o' with
  | T =>
    have hprobs : P0.markovProbs (altUp M o') =
        (1 / (2 + (cT : ℚ)), (1 + (cT : ℚ)) / (2 + (cT : ℚ))) := by
      simp only [P0.markovProbs]
      rw [if_neg hnot4, if_pos h3, hlast3, hb]
      simp only [Outcome.flip]
      rw [countSub_TXTT_zero, ← hcTdef]
      norm_num
      constructor <;> ring
    have hple : ¬((1 + (cT : ℚ)) / (2 + (cT : ℚ)) ≤ 1 / (2 + (cT : ℚ))) := by
      rw [div_le_div_iff_of_pos_right hdT]
      linarith
    have hmax : max (1 / (2 + (cT : ℚ))) ((1 + (cT : ℚ)) / (2 + (cT : ℚ))) =
        (1 + (cT : ℚ)) / (2 + (cT : ℚ)) :=
      max_eq_right (le_of_not_le hple)
    refine ⟨?_, ?_, ?_⟩
    · rw [hkeyP, hprobs]
      simp only [if_neg hple]
      rw [hLo, ← hb3, hb]
      rfl
    · rw [hkeyT, hkeyX, hprobs]
      simp only
      rw [hmax, lt_div_iff₀ hdT]
      linarith
    · rw [hkeyT, hkeyX, hprobs]
      simp only
      rw [hmax, div_lt_one hdT]
      linarith
  | X =>
    have hprobs : P0.markovProbs (altUp M o') =
        ((1 + (cX : ℚ)) / (2 + (cX : ℚ)), 1 / (2 + (cX : ℚ))) := by
      simp only [P0.markovProbs]
      rw [if_neg hnot4, if_pos h3, hlast3, hb]
      simp only [Outcome.flip]
      rw [countSub_XTXX_zero, ← hcXdef]
      norm_num
      constructor <;> ring
    have hple : 1 / (2 + (cX : ℚ)) ≤ (1 + (cX : ℚ)) / (2 + (cX : ℚ)) := by
      rw [div_le_div_iff_of_pos_right hdX]
      linarith
    have hmax : max ((1 + (cX : ℚ)) / (2 + (cX : ℚ))) (1 / (2 + (cX : ℚ))) =
        (1 + (cX : ℚ)) / (2 + (cX : ℚ)) :=
      max_eq_left hple
    refine ⟨?_, ?_, ?_⟩
    · rw [hkeyP, hprobs]
      simp only [if_pos hple]
      rw [hLo, ← hb3, hb]
      rfl
    · rw [hkeyT, hkeyX, hprobs]
      simp only
      rw [hmax, lt_div_iff₀ hdX]
      linarith
    · rw [hkeyT, hkeyX, hprobs]
      simp only
      rw [hmax, div_lt_one hdX]
      linarith

/-- C6 counterexample: on the perfect 10-round alternation ending in
`X`, the part_000 Markov predictor does pick the opposite symbol `T`,
but its winning probability is not `1` — Laplace `+1` smoothing caps
it strictly below `1` — refuting the claim that the opposite symbol is
predicted with probability 1. -/
theorem C6_probability_below_one :
    (P0.markovPrediction (altHist 10 Outcome.T)).pred = Outcome.T ∧
    max (P0.markovPrediction (altHist 10 Outcome.T)).pT
        (P0.markovPrediction (altHist 10 Outcome.T)).pX ≠ 1 := by
  obtain ⟨hpred, -, hlt⟩ := markov_altHist_spec 10 Outcome.T (by omega)
  exact ⟨by rw [hpred]; rfl, ne_of_lt hlt⟩

/-- C6 (amended): for every perfect alternation of length at least 5,
the part_000 `markovPrediction` evaluates its lag-3 context (`TXT` or
`XTX`; the lag-4 branch only handles the `TTTT` context, which a
perfect alternation never produces) and predicts the opposite of the
last symbol, whose smoothed probability is strictly greater than `1/2`
but — because of the Laplace `+1` smoothing — strictly less than `1`,
not equal to `1` as claimed.  (The server.js variant's
`markovPrediction` body is not even syntactically valid JavaScript:
its lag-4 counter declarations at lines 763 and 766 contain
identifiers with embedded spaces.) -/
theorem C6_markov_alternation (L : ℕ) (o : Outcome) (hL : 5 ≤ L) :
    (altUp L o).getLast? = some (flipN (L - 1) o) ∧
    (P0.markovPrediction (altHist L o)).pred = (flipN (L - 1) o).flip ∧
    1 / 2 < max (P0.markovPrediction (altHist L o)).pT
        (P0.markovPrediction (altHist L o)).pX ∧
    max (P0.markovPrediction (altHist L o)).pT
        (P0.markovPrediction (altHist L o)).pX < 1 := by
  obtain ⟨hpred, hgt, hlt⟩ := markov_altHist_spec L o hL
  refine ⟨altUp_getLast L o (by omega), ?_, hgt, hlt⟩
  rw [hpred]
  have h2 : flipN ((L - 1) + 1) o = (flipN (L - 1) o).flip := by
    rw [flipN_succ, flipN_flip]
  have h : (L - 1) + 1 = L := by omega
  rw [h] at h2
  exact h2

/-- C6 witness: the length-6 alternation instantiates the amended
Markov-alternation behaviour. -/
theorem C6_markov_alternation_witness :
    5 ≤ 6 ∧
    ((altUp 6 Outcome.T).getLast? = some (flipN (6 - 1) Outcome.T) ∧
     (P0.markovPrediction (altHist 6 Outcome.T)).pred =
       (flipN (6 - 1) Outcome.T).flip ∧
     1 / 2 < max (P0.markovPrediction (altHist 6 Outcome.T)).pT
         (P0.markovPrediction (altHist 6 Outcome.T)).pX ∧
     max (P0.markovPrediction (altHist 6 Outcome.T)).pT
         (P0.markovPrediction (altHist 6 Outcome.T)).pX < 1) :=
  ⟨by omega, C6_markov_alternation 6 Outcome.T (by omega)⟩
